import Mathlib

/-!
Verification of the VeriCore AI analysis engine (src/backend/main.py).

The development shallowly embeds the two algorithmic components of the
backend:

* `generate_demo_analysis` (main.py lines 190-289), the deterministic demo
  simulator.  Python's global `random` generator, seeded per call via
  `random.seed(int(hashlib.md5(text.encode()).hexdigest()[:8], 16))`, is
  modelled as an explicit stream state (`RandState`) threaded through the
  call in source order; MD5 and the Mersenne Twister are modelled by fixed
  deterministic mixing functions of the text (resp. of seed and draw index).
  Every theorem below depends only on (a) the stream being a deterministic
  function of the text alone and (b) `randint a b` landing in `[a, b]` —
  never on particular drawn values.  The call to
  `datetime.now().strftime('%Y-%m-%d %H:%M:%S')` on line 281 is modelled as
  an explicit extra argument `now`.

* `parse_llm_response` (main.py lines 122-158), the layered JSON recovery
  ladder.  `json.loads` is modelled by an executable parser of the grammar
  Python's json module accepts (numbers kept as their raw matched token;
  `NaN`/`Infinity`/`-Infinity` accepted; strict strings; duplicate object
  keys collapsed with last-value-wins as `dict` does), where a raised
  `JSONDecodeError` is `none`.  The two `re.search` calls are modelled by
  functions with the same match semantics.
-/

namespace VeriCore

/-! ### Python string helpers -/

/-- Whitespace for Python's `str.split()` and the `\s` regex class
(ASCII range). -/
def pyIsSpace (c : Char) : Bool :=
  c = ' ' || c = '\t' || c = '\n' || c = '\r' || c = Char.ofNat 11 || c = Char.ofNat 12

/-- Worker for `pySplit`: split on whitespace runs, accumulating the current
word in reverse. -/
def splitWsAux : List Char → List Char → List String
  | [], acc => if acc.isEmpty then [] else [String.mk acc.reverse]
  | c :: cs, acc =>
    if pyIsSpace c then
      if acc.isEmpty then splitWsAux cs [] else String.mk acc.reverse :: splitWsAux cs []
    else splitWsAux cs (c :: acc)

/-- Python `text.split()` with no argument: split on runs of whitespace,
discarding empty pieces. -/
def pySplit (s : String) : List String :=
  splitWsAux s.data []

/-- Python `text.upper()` (ASCII letters). -/
def pyUpper (s : String) : String :=
  String.mk (s.data.map Char.toUpper)

/-- Python `text[:n]` by code points. -/
def pyTake (s : String) (n : Nat) : String :=
  String.mk (s.data.take n)

/-- Python `' '.join(ws)`. -/
def joinSpace : List String → String
  | [] => ""
  | [w] => w
  | w :: ws => w ++ " " ++ joinSpace ws

/-! ### The seeded pseudo-random stream (main.py lines 193-194) -/

/-- Models `int(hashlib.md5(answer_text.encode()).hexdigest()[:8], 16)`: a
fixed 32-bit value derived deterministically from the text alone.  MD5 is
modelled by a fixed fold over the characters; the theorems below rely only
on the seed being a deterministic function of the text, never on particular
values. -/
def textSeed (s : String) : Nat :=
  s.data.foldl (fun h c => (h * 1000003 + c.toNat) % 4294967296) 5381

/-- State of the per-call pseudo-random stream after `random.seed(...)`: the
derived seed plus the number of draws already made.  Python's Mersenne
Twister stream is modelled by the fixed mixing function `mixDraw` of
(seed, draw index). -/
structure RandState where
  seed : Nat
  draws : Nat
deriving DecidableEq

/-- Fixed deterministic mixing function standing in for the Mersenne Twister
output at a given draw index. -/
def mixDraw (seed k : Nat) : Nat :=
  (seed * 2654435761 + k * 40503 + 12345) % 4294967296

/-- Models `random.randint(a, b)`: a draw in the inclusive range `[a, b]`
(every call site of the source has `a ≤ b`), advancing the stream by one. -/
def randint (a b : Int) (g : RandState) : Int × RandState :=
  (a + ((mixDraw g.seed g.draws % (b - a + 1).toNat : Nat) : Int), ⟨g.seed, g.draws + 1⟩)

theorem randint_ge (a b : Int) (g : RandState) : a ≤ (randint a b g).1 := by
  have h : (0 : Int) ≤ ((mixDraw g.seed g.draws % (b - a + 1).toNat : Nat) : Int) :=
    Int.natCast_nonneg _
  simp only [randint]
  omega

theorem randint_le (a b : Int) (g : RandState) (hab : a ≤ b) : (randint a b g).1 ≤ b := by
  have hpos : 0 < (b - a + 1).toNat := by omega
  have hlt : mixDraw g.seed g.draws % (b - a + 1).toNat < (b - a + 1).toNat :=
    Nat.mod_lt _ hpos
  simp only [randint]
  generalize mixDraw g.seed g.draws % (b - a + 1).toNat = m at hlt ⊢
  omega

/-! ### The demo simulator (main.py lines 190-289)

The Python function body is split into helper definitions, one per source
region, with the stream state threaded through in exactly the source's call
order (base draw, the two conditional penalties, the conditional bonus, then
the snippet draws). -/

/-- Lines 193-204: seed the generator from the text and draw the base score
`random.randint(45, 85)`. -/
def demoInit (answer_text : String) : Int × RandState :=
  randint 45 85 ⟨textSeed answer_text, 0⟩

/-- Lines 206-210: the two conditional penalties (digits-and-percent text,
text longer than 500 characters). -/
def demoPenalized (answer_text : String) : Int × RandState :=
  let p := demoInit answer_text
  let has_numbers := answer_text.data.any (fun c => c.isDigit)
  let has_percentages := answer_text.data.any (fun c => c = '%')
  let q :=
    if has_numbers && has_percentages then
      let d := randint 5 15 p.2
      (p.1 - d.1, d.2)
    else p
  if answer_text.data.length > 500 then
    let d := randint 0 10 q.2
    (q.1 - d.1, d.2)
  else q

/-- Lines 211-212: the short-text bonus `base_score += random.randint(5, 10)`
when the word count is below 20. -/
def demoBase (answer_text : String) : Int × RandState :=
  let q := demoPenalized answer_text
  if (pySplit answer_text).length < 20 then
    let d := randint 5 10 q.2
    (q.1 + d.1, d.2)
  else q

/-- Line 214: `score = max(20, min(95, base_score))`. -/
def demoScore (answer_text : String) : Int :=
  max 20 (min 95 (demoBase answer_text).1)

/-- Lines 217-222: the threshold rule for the label. -/
def demoLabel (answer_text : String) : String :=
  if demoScore answer_text ≥ 75 then "High"
  else if demoScore answer_text ≥ 50 then "Medium"
  else "Low"

/-- Lines 227-232: the up-to-two pseudo-random word spans, drawn with the
stream state left by the score computation. -/
def demoSnippetsRaw (answer_text : String) : List String × RandState :=
  let g := (demoBase answer_text).2
  let words := pySplit answer_text
  let p :=
    if words.length > 10 then
      let s1 := randint 0 (Int.ofNat (min 5 (words.length - 5))) g
      let n1 := randint 4 8 s1.2
      ([joinSpace ((words.drop s1.1.toNat).take n1.1.toNat)], n1.2)
    else (([] : List String), g)
  if words.length > 20 then
    let s2 := randint 10 (Int.ofNat (min 15 (words.length - 5))) p.2
    let n2 := randint 4 8 s2.2
    (p.1 ++ [joinSpace ((words.drop s2.1.toNat).take n2.1.toNat)], n2.2)
  else p

/-- Lines 233-234: fall back to the first 50 characters (plus an ellipsis
marker when truncated) when no span was produced. -/
def demoSnippets (answer_text : String) : List String × RandState :=
  let p := demoSnippetsRaw answer_text
  if p.1.isEmpty then
    ([if answer_text.data.length > 50 then pyTake answer_text 50 ++ "..." else answer_text], p.2)
  else p

/-- One entry of the category-specific issue template table
(main.py lines 237-253): the three fixed fields an issue is filled from. -/
structure IssueTemplate where
  riskType : String
  explanation : String
  humanCheckHint : String
deriving DecidableEq

/-- Lines 238-242: the `legal` template table. -/
def legalTemplates : List IssueTemplate :=
  [⟨"hallucination",
    "This statement references legal principles that require verification against current case law and jurisdiction-specific regulations.",
    "Verify the legal citation with a qualified attorney and check if it applies to the relevant jurisdiction."⟩,
   ⟨"compliance-risk",
    "The language used may create unintended legal obligations or liabilities if taken as formal legal advice.",
    "Have legal counsel review before using in any binding documents or client communications."⟩,
   ⟨"uncertain",
    "The claim lacks specific citations or references that would allow independent verification.",
    "Request source documentation or legal precedent supporting this assertion."⟩]

/-- Lines 243-247: the `finance` template table. -/
def financeTemplates : List IssueTemplate :=
  [⟨"hallucination",
    "Financial figures or projections mentioned require verification against audited financial statements.",
    "Cross-reference with official financial reports and have a CPA verify the calculations."⟩,
   ⟨"compliance-risk",
    "This statement could be interpreted as financial advice, which may trigger regulatory requirements.",
    "Ensure appropriate disclaimers are included and review with compliance team."⟩,
   ⟨"uncertain",
    "Market predictions or financial forecasts inherently carry uncertainty and should not be relied upon without additional analysis.",
    "Conduct independent market research and consult with financial advisors."⟩]

/-- Lines 248-252: the `compliance` template table. -/
def complianceTemplates : List IssueTemplate :=
  [⟨"hallucination",
    "References to specific regulations or compliance requirements need verification against current regulatory frameworks.",
    "Check the current version of referenced regulations and confirm applicability."⟩,
   ⟨"compliance-risk",
    "The statement may not fully address all relevant compliance requirements for your industry or jurisdiction.",
    "Conduct a comprehensive compliance review with your regulatory affairs team."⟩,
   ⟨"uncertain",
    "Regulatory interpretations can vary; this guidance may not reflect the position of all relevant regulatory bodies.",
    "Consult with regulatory counsel to confirm interpretation aligns with agency guidance."⟩]

/-- Line 255: `issue_templates.get(context_type, issue_templates["legal"])`. -/
def issue_templates (context_type : String) : List IssueTemplate :=
  if context_type = "legal" then legalTemplates
  else if context_type = "finance" then financeTemplates
  else if context_type = "compliance" then complianceTemplates
  else legalTemplates

/-- One issue record as built on main.py lines 262-267 (the `Issue` pydantic
model of lines 40-44). -/
structure IssueDict where
  snippet : String
  riskType : String
  explanation : String
  humanCheckHint : String
deriving DecidableEq

/-- Lines 258-267: `num_issues` from the score thresholds, then the loop
`for i in range(min(num_issues, len(snippets), len(templates)))`. -/
def demoIssues (answer_text context_type : String) : List IssueDict :=
  let templates := issue_templates context_type
  let snippets := (demoSnippets answer_text).1
  let score := demoScore answer_text
  let num_issues : Nat := if score ≥ 75 then 1 else if score ≥ 50 then 2 else 3
  (List.range (min num_issues (min snippets.length templates.length))).map
    (fun i =>
      let t := templates.getD (i % templates.length) ⟨"", "", ""⟩
      ⟨pyTake (snippets.getD (i % snippets.length) "") 100,
       t.riskType, t.explanation, t.humanCheckHint⟩)

/-- Lines 270-271: `context_names.get(context_type, "general")`. -/
def ctxName (context_type : String) : String :=
  if context_type = "legal" then "legal"
  else if context_type = "finance" then "financial"
  else if context_type = "compliance" then "regulatory compliance"
  else "general"

/-- Lines 273-278: the compliance report narrative keyed by the label. -/
def demoComplianceReport (answer_text context_type : String) : String :=
  let score := demoScore answer_text
  let label := demoLabel answer_text
  if label = "High" then
    "Multi-model consensus analysis indicates this " ++ ctxName context_type ++
    " content demonstrates generally acceptable trust levels with a score of " ++
    toString score ++
    "/100. The AI-generated response appears well-structured and avoids major red flags. However, standard verification protocols should still be followed before relying on this content for critical decisions. Minor areas flagged for review do not represent significant compliance risks but warrant acknowledgment in audit documentation."
  else if label = "Medium" then
    "Analysis reveals moderate trust concerns in this " ++ ctxName context_type ++
    " content with a consensus score of " ++ toString score ++
    "/100. Several claims require independent verification before the content can be used in official capacity. The multi-model review identified potential areas where the AI may have made assumptions or generalizations that need human expert validation. Recommend escalation to qualified professionals before proceeding."
  else
    "ALERT: This " ++ ctxName context_type ++
    " content has received a low trust score of " ++ toString score ++
    "/100 from multi-model consensus analysis. Significant concerns have been identified including potential hallucinations, unverifiable claims, and compliance risks. This content should NOT be used without thorough review by qualified professionals. Immediate escalation to legal/compliance team is recommended."

/-- Line 281: the NDA audit note.  `now` is the value of
`datetime.now().strftime('%Y-%m-%d %H:%M:%S')` read when the call runs; the
`if True` of the source always selects the demo-mode sentence. -/
def demoAuditNote (answer_text context_type now : String) : String :=
  "VeriCore AI analysis completed at " ++ now ++ ". Context: " ++ pyUpper context_type ++
  ". Trust Score: " ++ toString (demoScore answer_text) ++ "/100 (" ++
  demoLabel answer_text ++ " confidence). " ++
  toString (demoIssues answer_text context_type).length ++
  " issue(s) flagged for review. " ++
  (if true then "Demo mode - simulated analysis." else "Production analysis.")

/-- The record returned by `generate_demo_analysis` (main.py lines 283-289);
field names follow the `AnalyzeResponse` pydantic model of lines 46-53. -/
structure AnalysisDict where
  score : Int
  label : String
  issues : List IssueDict
  complianceReport : String
  ndaauditNote : String
deriving DecidableEq

/-- Main.py lines 190-289, `generate_demo_analysis(answer_text, context_type)`.
The extra argument `now` is the wall-clock reading
`datetime.now().strftime('%Y-%m-%d %H:%M:%S')` the source takes on line 281. -/
def generate_demo_analysis (answer_text context_type now : String) : AnalysisDict :=
  ⟨demoScore answer_text,
   demoLabel answer_text,
   demoIssues answer_text context_type,
   demoComplianceReport answer_text context_type,
   demoAuditNote answer_text context_type now⟩

/-! ### JSON values, as Python's json module produces them

Numbers are kept as their raw matched token (the schema's `score` is an
integer, and no claim depends on float arithmetic); `NaN`, `Infinity` and
`-Infinity` — accepted by `json.loads` by default — are kept as tokens the
same way. -/

/-- A decoded JSON value.  `obj` holds the key/value pairs of a Python dict
in insertion order (duplicate keys already collapsed, last value wins). -/
inductive Json where
  | null : Json
  | bool (b : Bool) : Json
  | num (raw : String) : Json
  | str (s : String) : Json
  | arr (elems : List Json) : Json
  | obj (members : List (String × Json)) : Json

/-- Dict insertion `d[k] = v`: replace in place if the key is present,
append otherwise. -/
def dictInsert (acc : List (String × Json)) (k : String) (v : Json) :
    List (String × Json) :=
  if acc.any (fun p => p.1 = k) then acc.map (fun p => if p.1 = k then (k, v) else p)
  else acc ++ [(k, v)]

/-- Building a Python dict from parsed key/value pairs in order. -/
def pairsToDict (ms : List (String × Json)) : List (String × Json) :=
  ms.foldl (fun acc kv => dictInsert acc kv.1 kv.2) []

/-! ### The json.loads model -/

/-- JSON whitespace skipped by the decoder: space, tab, newline, return. -/
def jsonWsChar (c : Char) : Bool :=
  c = ' ' || c = '\t' || c = '\n' || c = '\r'

/-- Skip a run of JSON whitespace. -/
def skipJsonWs : List Char → List Char
  | [] => []
  | c :: cs => if jsonWsChar c then skipJsonWs cs else c :: cs

/-- Consume an expected literal character sequence. -/
def dropLit : List Char → List Char → Option (List Char)
  | [], cs => some cs
  | _ :: _, [] => none
  | p :: ps, c :: cs => if c = p then dropLit ps cs else none

/-- Take the maximal leading run of decimal digits. -/
def digitRun : List Char → List Char × List Char
  | [] => ([], [])
  | c :: cs =>
    if c.isDigit then
      let r := digitRun cs
      (c :: r.1, r.2)
    else ([], c :: cs)

/-- The integer part of Python's number regex: `0` alone, or a nonzero digit
followed by a digit run. -/
def scanIntPart : List Char → Option (List Char × List Char)
  | [] => none
  | c :: cs =>
    if c = '0' then some (['0'], cs)
    else if c.isDigit then
      let r := digitRun cs
      some (c :: r.1, r.2)
    else none

/-- The optional fraction group `(\.\d+)?`: absent (consuming nothing) when
no digit follows the dot, exactly as an optional regex group behaves. -/
def scanFrac : List Char → List Char × List Char
  | [] => ([], [])
  | c :: cs =>
    if c = '.' then
      match digitRun cs with
      | ([], _) => ([], c :: cs)
      | (ds, rest) => (c :: ds, rest)
    else ([], c :: cs)

/-- The optional exponent group `([eE][-+]?\d+)?`, again absent rather than
failing when it cannot match in full. -/
def scanExp : List Char → List Char × List Char
  | [] => ([], [])
  | c :: cs =>
    if c = 'e' ∨ c = 'E' then
      match cs with
      | [] => ([], [c])
      | s :: cs2 =>
        if s = '+' ∨ s = '-' then
          match digitRun cs2 with
          | ([], _) => ([], c :: s :: cs2)
          | (ds, rest) => (c :: s :: ds, rest)
        else
          match digitRun cs with
          | ([], _) => ([], c :: cs)
          | (ds, rest) => (c :: ds, rest)
    else ([], c :: cs)

/-- Python's `NUMBER_RE` match at the current position, returning the raw
matched token. -/
def scanNumber (cs : List Char) : Option (List Char × List Char) :=
  match cs with
  | '-' :: cs2 =>
    match scanIntPart cs2 with
    | none => none
    | some (ip, r1) =>
      let f := scanFrac r1
      let e := scanExp f.2
      some ('-' :: (ip ++ f.1 ++ e.1), e.2)
  | _ =>
    match scanIntPart cs with
    | none => none
    | some (ip, r1) =>
      let f := scanFrac r1
      let e := scanExp f.2
      some (ip ++ f.1 ++ e.1, e.2)

/-- Value of a hexadecimal digit. -/
def hexDigitVal (c : Char) : Option Nat :=
  if '0' ≤ c ∧ c ≤ '9' then some (c.toNat - '0'.toNat)
  else if 'a' ≤ c ∧ c ≤ 'f' then some (c.toNat - 'a'.toNat + 10)
  else if 'A' ≤ c ∧ c ≤ 'F' then some (c.toNat - 'A'.toNat + 10)
  else none

/-- The two-character escapes of the JSON string grammar. -/
def escChar : Char → Option Char
  | '"' => some '"'
  | '\\' => some '\\'
  | '/' => some '/'
  | 'b' => some (Char.ofNat 8)
  | 'f' => some (Char.ofNat 12)
  | 'n' => some '\n'
  | 'r' => some '\r'
  | 't' => some '\t'
  | _ => none

/-- Scan a string body after the opening quote (strict mode: raw control
characters are rejected), accumulating decoded characters in reverse. -/
def scanStrAux (acc : List Char) : List Char → Option (String × List Char)
  | [] => none
  | c :: rest =>
    if c = '"' then some (String.mk acc.reverse, rest)
    else if c = '\\' then
      match rest with
      | 'u' :: h1 :: h2 :: h3 :: h4 :: rest2 =>
        match hexDigitVal h1, hexDigitVal h2, hexDigitVal h3, hexDigitVal h4 with
        | some v1, some v2, some v3, some v4 =>
          scanStrAux (Char.ofNat (((v1 * 16 + v2) * 16 + v3) * 16 + v4) :: acc) rest2
        | _, _, _, _ => none
      | e :: rest2 =>
        match escChar e with
        | some ch => scanStrAux (ch :: acc) rest2
        | none => none
      | [] => none
    else if c.toNat < 32 then none
    else scanStrAux (c :: acc) rest

mutual

/-- One JSON value at the current position (no leading whitespace), with the
fuel argument bounding recursion depth; dispatch follows the branches of
Python's scanner.  `none` models a raised `JSONDecodeError`. -/
def jsonVal : Nat → List Char → Option (Json × List Char)
  | 0, _ => none
  | _ + 1, [] => none
  | fuel + 1, c :: r =>
    if c = '"' then
      match scanStrAux [] r with
      | some (s, rest) => some (Json.str s, rest)
      | none => none
    else if c = '[' then
      match skipJsonWs r with
      | ']' :: rest => some (Json.arr [], rest)
      | cs2 =>
        match jsonElems fuel cs2 with
        | some (es, rest) => some (Json.arr es, rest)
        | none => none
    else if c = '{' then
      match skipJsonWs r with
      | '}' :: rest => some (Json.obj [], rest)
      | cs2 =>
        match jsonMembers fuel cs2 with
        | some (ms, rest) => some (Json.obj (pairsToDict ms), rest)
        | none => none
    else if c = 'n' then
      match dropLit ['u', 'l', 'l'] r with
      | some rest => some (Json.null, rest)
      | none => none
    else if c = 't' then
      match dropLit ['r', 'u', 'e'] r with
      | some rest => some (Json.bool true, rest)
      | none => none
    else if c = 'f' then
      match dropLit ['a', 'l', 's', 'e'] r with
      | some rest => some (Json.bool false, rest)
      | none => none
    else if c = 'N' then
      match dropLit ['a', 'N'] r with
      | some rest => some (Json.num "NaN", rest)
      | none => none
    else if c = 'I' then
      match dropLit ['n', 'f', 'i', 'n', 'i', 't', 'y'] r with
      | some rest => some (Json.num "Infinity", rest)
      | none => none
    else if c = '-' then
      match dropLit ['I', 'n', 'f', 'i', 'n', 'i', 't', 'y'] r with
      | some rest => some (Json.num "-Infinity", rest)
      | none =>
        match scanNumber (c :: r) with
        | some (raw, rest) => some (Json.num (String.mk raw), rest)
        | none => none
    else
      match scanNumber (c :: r) with
      | some (raw, rest) => some (Json.num (String.mk raw), rest)
      | none => none

/-- One-or-more comma-separated array elements, then the closing `]`. -/
def jsonElems : Nat → List Char → Option (List Json × List Char)
  | 0, _ => none
  | fuel + 1, cs =>
    match jsonVal fuel cs with
    | none => none
    | some (v, r) =>
      match skipJsonWs r with
      | ',' :: r2 =>
        match jsonElems fuel (skipJsonWs r2) with
        | some (vs, r3) => some (v :: vs, r3)
        | none => none
      | ']' :: r2 => some ([v], r2)
      | _ => none

/-- One-or-more `"key": value` members, then the closing `}`. -/
def jsonMembers : Nat → List Char → Option (List (String × Json) × List Char)
  | 0, _ => none
  | fuel + 1, cs =>
    match cs with
    | '"' :: r =>
      match scanStrAux [] r with
      | none => none
      | some (k, r1) =>
        match skipJsonWs r1 with
        | ':' :: r2 =>
          match jsonVal fuel (skipJsonWs r2) with
          | none => none
          | some (v, r3) =>
            match skipJsonWs r3 with
            | ',' :: r4 =>
              match jsonMembers fuel (skipJsonWs r4) with
              | some (ms, r5) => some ((k, v) :: ms, r5)
              | none => none
            | '}' :: r4 => some ([(k, v)], r4)
            | _ => none
        | _ => none
    | _ => none

end

/-- Models `json.loads(s)`: skip leading whitespace, decode one value, skip
trailing whitespace, and require the input to be exhausted.  `none` stands
for a raised `json.JSONDecodeError`. -/
def json_loads (s : String) : Option Json :=
  let cs := skipJsonWs s.data
  match jsonVal (cs.length + 1) cs with
  | none => none
  | some (j, r) => if (skipJsonWs r).isEmpty then some j else none

/-! ### The two regex searches of parse_llm_response -/

/-- Python `\s`-stripping of both ends (`.strip()` over the regex whitespace
class). -/
def pyStripL (l : List Char) : List Char :=
  ((l.dropWhile pyIsSpace).reverse.dropWhile pyIsSpace).reverse

/-- Split a character list at the first occurrence of a (nonempty) literal
pattern: `some (pre, post)` with `l = pre ++ pat ++ post` and no earlier
occurrence. -/
def splitSub (pat : List Char) : List Char → Option (List Char × List Char)
  | [] => none
  | c :: cs =>
    match dropLit pat (c :: cs) with
    | some rest => some ([], rest)
    | none =>
      match splitSub pat cs with
      | some (pre, post) => some (c :: pre, post)
      | none => none

/-- Split a character list at the last occurrence of a character:
`some (pre, post)` with `l = pre ++ t :: post` and `t ∉ post`. -/
def splitLast (t : Char) : List Char → Option (List Char × List Char)
  | [] => none
  | c :: cs =>
    match splitLast t cs with
    | some (pre, post) => some (c :: pre, post)
    | none => if c = t then some ([], cs) else none

/-- The fence pattern of the first regex. -/
def fencePat : List Char := ['`', '`', '`']

/-- Models `re.search(r'```(?:json)?\s*([\s\S]*?)\s*```', text)` (main.py
line 131): the text between the first fence (with an optional `json` tag)
and the next fence, whitespace-stripped by the two `\s*` of the pattern. -/
def extractFenced (s : String) : Option String :=
  match splitSub fencePat s.data with
  | none => none
  | some (_, after) =>
    let after2 := match dropLit ['j', 's', 'o', 'n'] after with
      | some r => r
      | none => after
    match splitSub fencePat after2 with
    | none => none
    | some (mid, _) => some (String.mk (pyStripL mid))

/-- Models `re.search(r'\{[\s\S]*\}', text)` (main.py line 139): the greedy
span from the first opening brace to the last closing brace after it. -/
def extractBraces (s : String) : Option String :=
  match splitSub ['{'] s.data with
  | none => none
  | some (_, afterBrace) =>
    match splitLast '}' afterBrace with
    | none => none
    | some (mid, _) => some (String.mk ('{' :: mid ++ ['}']))

/-- The fixed fallback record of main.py lines 147-158, returned when every
parsing strategy fails. -/
def fallbackResponse : Json :=
  Json.obj
    [("score", Json.num "50"),
     ("label", Json.str "Medium"),
     ("issues", Json.arr
       [Json.obj
         [("snippet", Json.str "Unable to parse AI response"),
          ("riskType", Json.str "uncertain"),
          ("explanation", Json.str
            "The trust analysis could not be completed properly. Manual review recommended."),
          ("humanCheckHint", Json.str
            "Please review the original content manually and re-run the analysis.")]]),
     ("complianceReport", Json.str
       "Analysis parsing encountered an issue. The AI-generated content should be reviewed manually by a qualified professional before any decisions are made based on it."),
     ("ndaauditNote", Json.str
       "Automated trust analysis incomplete. Manual compliance review required.")]

/-- Main.py lines 122-158, `parse_llm_response(response_text)`: direct
`json.loads`, then the fenced-block search, then the brace span, then the
fixed fallback record.  Every `JSONDecodeError` is swallowed (`none` here),
so the function returns a plain value for every input. -/
def parse_llm_response (response_text : String) : Json :=
  match json_loads response_text with
  | some j => j
  | none =>
    match (extractFenced response_text).bind json_loads with
    | some j => j
    | none =>
      match (extractBraces response_text).bind json_loads with
      | some j => j
      | none => fallbackResponse

/-! ### The AnalysisResult shape (spec section 3 / the pydantic models of
main.py lines 40-53) -/

/-- Association lookup in a decoded object. -/
def jLookup : List (String × Json) → String → Option Json
  | [], _ => none
  | (k2, v) :: rest, k => if k2 = k then some v else jLookup rest k

/-- An unsigned integer token: `0` alone, or a nonzero digit followed by
digits (the integer part of Python's number regex). -/
def intDigits : List Char → Bool
  | [] => false
  | c :: ds => if c = '0' then ds.isEmpty else c.isDigit && ds.all (fun d => d.isDigit)

/-- Raw token of a JSON integer: an optional minus sign, then `intDigits`. -/
def intToken (s : String) : Bool :=
  match s.data with
  | [] => false
  | c :: ds => if c = '-' then intDigits ds else intDigits (c :: ds)

/-- A remainder that cannot extend a number token: empty, or headed by a
character that is no digit and none of the dot and exponent markers.  The
delimiters following a rendered value (comma, closing brackets, end of
input) all qualify. -/
def numDelim : List Char → Bool
  | [] => true
  | c :: _ => !(c.isDigit || c = '.' || c = 'e' || c = 'E')

/-- The three admissible risk types. -/
def riskTypeOk (s : String) : Bool :=
  s = "hallucination" || s = "uncertain" || s = "compliance-risk"

/-- The three admissible labels. -/
def labelOk (s : String) : Bool :=
  s = "High" || s = "Medium" || s = "Low"

/-- A well-formed issue record: the four string fields of the `Issue` model,
with an admissible risk type. -/
def issueShaped (j : Json) : Bool :=
  match j with
  | Json.obj kvs =>
    (match jLookup kvs "snippet" with
     | some (Json.str _) => true
     | _ => false) &&
    (match jLookup kvs "riskType" with
     | some (Json.str t) => riskTypeOk t
     | _ => false) &&
    (match jLookup kvs "explanation" with
     | some (Json.str _) => true
     | _ => false) &&
    (match jLookup kvs "humanCheckHint" with
     | some (Json.str _) => true
     | _ => false)
  | _ => false

/-- An AnalysisResult-shaped record: an object with an integer `score`, an
admissible `label`, a list of well-formed issues, and string
`complianceReport` and `ndaauditNote` fields. -/
def analysisShaped (j : Json) : Bool :=
  match j with
  | Json.obj kvs =>
    (match jLookup kvs "score" with
     | some (Json.num raw) => intToken raw
     | _ => false) &&
    (match jLookup kvs "label" with
     | some (Json.str l) => labelOk l
     | _ => false) &&
    (match jLookup kvs "issues" with
     | some (Json.arr xs) => xs.all issueShaped
     | _ => false) &&
    (match jLookup kvs "complianceReport" with
     | some (Json.str _) => true
     | _ => false) &&
    (match jLookup kvs "ndaauditNote" with
     | some (Json.str _) => true
     | _ => false)
  | _ => false

/-- Number of issues a decoded record carries, as the endpoint reads it
(`len(analysis.get("issues", []))`). -/
def jsonIssueCount (j : Json) : Nat :=
  match j with
  | Json.obj kvs =>
    match jLookup kvs "issues" with
    | some (Json.arr xs) => xs.length
    | _ => 0
  | _ => 0

/-! ### Serialization

The compact serialization of a decoded value, used to quantify over the
JSON texts an external model can emit.  It is exact for values whose
strings need no escaping; the well-formedness predicate `plainJson` below
restricts claims to such values (and to integer number tokens, matching the
schema's integer `score`). -/

mutual

/-- Render one value. -/
def renderVal : Json → List Char
  | Json.null => ['n', 'u', 'l', 'l']
  | Json.bool true => ['t', 'r', 'u', 'e']
  | Json.bool false => ['f', 'a', 'l', 's', 'e']
  | Json.num raw => raw.data
  | Json.str s => '"' :: (s.data ++ ['"'])
  | Json.arr es => '[' :: (renderElems es ++ [']'])
  | Json.obj ms => '{' :: (renderMembers ms ++ ['}'])

/-- Render comma-separated array elements. -/
def renderElems : List Json → List Char
  | [] => []
  | [e] => renderVal e
  | e :: es => renderVal e ++ ',' :: renderElems es

/-- Render comma-separated `"key":value` members. -/
def renderMembers : List (String × Json) → List Char
  | [] => []
  | [(k, v)] => '"' :: (k.data ++ '"' :: ':' :: renderVal v)
  | (k, v) :: ms => '"' :: (k.data ++ '"' :: ':' :: (renderVal v ++ ',' :: renderMembers ms))

end

/-- The serialized text of a decoded value. -/
def jsonSerialize (j : Json) : String :=
  String.mk (renderVal j)

/-- A character a JSON string can hold without escaping. -/
def plainChar (c : Char) : Bool :=
  c ≠ '"' && c ≠ '\\' && 32 ≤ c.toNat

/-- Pairwise-distinct member keys. -/
def keysNodup : List (String × Json) → Bool
  | [] => true
  | (k, _) :: ms => ms.all (fun p => p.1 ≠ k) && keysNodup ms

mutual

/-- Well-formed for the round-trip: strings and keys escape-free, number
tokens integers, member keys distinct. -/
def plainJson : Json → Bool
  | Json.null => true
  | Json.bool _ => true
  | Json.num raw => intToken raw
  | Json.str s => s.data.all plainChar
  | Json.arr es => plainList es
  | Json.obj ms => keysNodup ms && plainMembers ms

/-- All elements well-formed. -/
def plainList : List Json → Bool
  | [] => true
  | j :: js => plainJson j && plainList js

/-- All keys escape-free and all values well-formed. -/
def plainMembers : List (String × Json) → Bool
  | [] => true
  | (k, v) :: ms => k.data.all plainChar && plainJson v && plainMembers ms

end

/-- The rendered text contains no backtick (so it cannot collide with the
fenced-block regex). -/
def fenceFree (l : List Char) : Bool :=
  l.all (fun c => c ≠ '`')

/-- A prose chunk that stays out of the way of the two regex strategies: no
backtick and no brace of either kind. -/
def proseOk (s : String) : Bool :=
  s.data.all (fun c => c ≠ '`' && c ≠ '{' && c ≠ '}')

/-- A concrete schema-shaped record used to witness the extraction claims. -/
def exampleAnalysisMembers : List (String × Json) :=
  [("score", Json.num "85"),
   ("label", Json.str "High"),
   ("issues", Json.arr
     [Json.obj
       [("snippet", Json.str "the quoted risky part"),
        ("riskType", Json.str "uncertain"),
        ("explanation", Json.str "The claim is vague and lacks support."),
        ("humanCheckHint", Json.str "Verify against the source document.")]]),
   ("complianceReport", Json.str "A short compliance summary for review."),
   ("ndaauditNote", Json.str "A short note for the audit log.")]

/-! ### Lemmas about the demo simulator -/

theorem issue_templates_length (cat : String) : (issue_templates cat).length = 3 := by
  unfold issue_templates
  split_ifs <;> rfl

theorem num_issues_by_label (text : String) :
    (if demoScore text ≥ 75 then 1 else if demoScore text ≥ 50 then 2 else 3) =
      (if demoLabel text = "High" then (1 : Nat)
       else if demoLabel text = "Medium" then 2 else 3) := by
  by_cases h1 : demoScore text ≥ 75
  · simp [demoLabel, h1]
  · by_cases h2 : demoScore text ≥ 50
    · simp [demoLabel, h1, h2]
    · simp [demoLabel, h1, h2]

theorem one_le_snippets (text : String) : 1 ≤ (demoSnippets text).1.length := by
  unfold demoSnippets
  by_cases h : (demoSnippetsRaw text).1.isEmpty
  · simp [h]
  · simp only [h]
    rcases hl : (demoSnippetsRaw text).1 with _ | ⟨a, l⟩
    · rw [hl] at h; simp at h
    · simp [hl]

theorem demoIssues_length (text cat : String) :
    (demoIssues text cat).length =
      min (if demoLabel text = "High" then 1 else if demoLabel text = "Medium" then 2 else 3)
          (min (demoSnippets text).1.length 3) := by
  simp only [demoIssues, List.length_map, List.length_range, issue_templates_length,
    num_issues_by_label]

theorem demoIssues_length_pos (text cat : String) : 1 ≤ (demoIssues text cat).length := by
  rw [demoIssues_length]
  refine Nat.le_min.mpr ⟨?_, Nat.le_min.mpr ⟨one_le_snippets text, by omega⟩⟩
  split_ifs <;> omega

/-! ### Claim theorems about the demo simulator -/

/-- C1 (counterexample): `generate_demo_analysis` is not byte-identical across
repeated calls with identical `(text, category)` arguments, because the
`ndaauditNote` field embeds the wall-clock completion time
(`datetime.now().strftime(...)`, main.py line 281): two calls one second
apart disagree on that field. -/
theorem claim1_counterexample :
    (generate_demo_analysis "The contract terms appear to be standard and enforceable."
        "legal" "2025-01-01 10:00:00").ndaauditNote ≠
      (generate_demo_analysis "The contract terms appear to be standard and enforceable."
        "legal" "2025-01-01 10:00:01").ndaauditNote := by
  set_option maxRecDepth 100000 in decide

/-- C1 (amended): for identical `(text, category)` the demo simulator is
byte-identical in `score`, `label`, `issues` and `complianceReport` across
repeated calls and process restarts, whatever wall-clock times the two calls
observe; only `ndaauditNote` additionally depends on the call time. -/
theorem claim1_amended_determinism (text cat t1 t2 : String) :
    (generate_demo_analysis text cat t1).score = (generate_demo_analysis text cat t2).score ∧
    (generate_demo_analysis text cat t1).label = (generate_demo_analysis text cat t2).label ∧
    (generate_demo_analysis text cat t1).issues = (generate_demo_analysis text cat t2).issues ∧
    (generate_demo_analysis text cat t1).complianceReport
      = (generate_demo_analysis text cat t2).complianceReport :=
  ⟨rfl, rfl, rfl, rfl⟩

/-- C6: every demo-mode result satisfies `20 ≤ score ≤ 95`, and the label is
exactly the threshold rule applied to the score (High iff `score ≥ 75`,
Medium iff `50 ≤ score < 75`, else Low). -/
theorem claim6_score_bounds_label (text cat now : String) :
    20 ≤ (generate_demo_analysis text cat now).score ∧
    (generate_demo_analysis text cat now).score ≤ 95 ∧
    (generate_demo_analysis text cat now).label =
      (if (generate_demo_analysis text cat now).score ≥ 75 then "High"
       else if (generate_demo_analysis text cat now).score ≥ 50 then "Medium" else "Low") := by
  refine ⟨?_, ?_, rfl⟩
  · show (20 : Int) ≤ demoScore text
    unfold demoScore
    exact le_max_left _ _
  · show demoScore text ≤ (95 : Int)
    unfold demoScore
    exact max_le (by norm_num) (min_le_left _ _)

/-- C7: the number of issues a demo-mode result carries equals
`min(issueCountForLabel, snippetCount, 3)` where `issueCountForLabel` is
1 for High, 2 for Medium and 3 for Low; in particular it never exceeds 3. -/
theorem claim7_issue_count (text cat now : String) :
    (generate_demo_analysis text cat now).issues.length =
      min (if (generate_demo_analysis text cat now).label = "High" then 1
           else if (generate_demo_analysis text cat now).label = "Medium" then 2 else 3)
          (min (demoSnippets text).1.length 3) ∧
    (generate_demo_analysis text cat now).issues.length ≤ 3 := by
  refine ⟨demoIssues_length text cat, ?_⟩
  show (demoIssues text cat).length ≤ 3
  rw [demoIssues_length]
  exact le_trans (min_le_right _ _) (min_le_right _ _)

/-- C9: when the word count of the input is below 20 the short-text bonus
branch runs, and the resulting score is at least the score the same
computation would produce without the bonus (the clamp applied directly to
the post-penalty base), all other draws being equal — the bonus draw is the
last draw of the score phase, so removing it shifts no other draw. -/
theorem claim9_short_text_bonus (text cat now : String)
    (h : (pySplit text).length < 20) :
    max 20 (min 95 (demoPenalized text).1) ≤ (generate_demo_analysis text cat now).score := by
  show _ ≤ demoScore text
  unfold demoScore demoBase
  simp only [h, if_pos]
  have hd := randint_ge 5 10 (demoPenalized text).2
  have hle : (demoPenalized text).1 ≤
      (demoPenalized text).1 + (randint 5 10 (demoPenalized text).2).1 := by omega
  exact max_le_max le_rfl (min_le_min le_rfl hle)

/-- C9 (witness): the five-word input of the spec scenario triggers the bonus
branch, and the bonus can only raise the clamped score. -/
theorem claim9_short_text_bonus_witness :
    (pySplit "Contract terms appear standard.").length < 20 ∧
    max 20 (min 95 (demoPenalized "Contract terms appear standard.").1) ≤
      (generate_demo_analysis "Contract terms appear standard." "legal"
        "2025-01-01 00:00:00").score :=
  ⟨by decide, claim9_short_text_bonus _ _ _ (by decide)⟩

/-- C10: in demo mode the score and the label depend only on the input text,
never on the category: the seed is derived from the text alone and the score
pipeline never reads the category, which only affects issue and report
wording. -/
theorem claim10_category_independent (text c1 c2 now1 now2 : String) :
    (generate_demo_analysis text c1 now1).score = (generate_demo_analysis text c2 now2).score ∧
    (generate_demo_analysis text c1 now1).label = (generate_demo_analysis text c2 now2).label :=
  ⟨rfl, rfl⟩


/-! ### Lemmas about the response parser and the JSON round-trip -/

/-! ### Scanner lemmas -/

theorem digitRun_stop {cs : List Char} (h : numDelim cs = true) : digitRun cs = ([], cs) := by
  rcases cs with _ | ⟨c, t⟩
  · rfl
  · simp only [numDelim, Bool.not_eq_true', Bool.or_eq_false_iff] at h
    simp [digitRun, h.1.1.1]

theorem digitRun_digits (ds : List Char) (hds : ∀ c ∈ ds, c.isDigit = true)
    (rest : List Char) (hrest : digitRun rest = ([], rest)) :
    digitRun (ds ++ rest) = (ds, rest) := by
  induction ds with
  | nil => simpa using hrest
  | cons c t ih =>
    have hc : c.isDigit = true := hds c (by simp)
    have ht := ih (fun x hx => hds x (by simp [hx]))
    simp [digitRun, hc, ht]

theorem numDelim_stop_frac {cs : List Char} (h : numDelim cs = true) :
    scanFrac cs = ([], cs) := by
  rcases cs with _ | ⟨c, t⟩
  · rfl
  · simp only [numDelim, Bool.not_eq_true', Bool.or_eq_false_iff,
      decide_eq_false_iff_not] at h
    simp [scanFrac, h.1.1.2]

theorem numDelim_stop_exp {cs : List Char} (h : numDelim cs = true) :
    scanExp cs = ([], cs) := by
  rcases cs with _ | ⟨c, t⟩
  · rfl
  · simp only [numDelim, Bool.not_eq_true', Bool.or_eq_false_iff,
      decide_eq_false_iff_not] at h
    have : ¬(c = 'e' ∨ c = 'E') := by
      rintro (rfl | rfl)
      · exact h.1.2 rfl
      · exact h.2 rfl
    simp [scanExp, this]

theorem scanIntPart_token (ds : List Char) (h : intDigits ds = true)
    (rest : List Char) (hrest : numDelim rest = true) :
    scanIntPart (ds ++ rest) = some (ds, rest) := by
  rcases ds with _ | ⟨c, t⟩
  · simp [intDigits] at h
  · simp only [intDigits] at h
    by_cases hc : c = '0'
    · subst hc
      rw [if_pos rfl] at h
      have ht : t = [] := by simpa [List.isEmpty_iff] using h
      subst ht
      simp [scanIntPart]
    · rw [if_neg hc] at h
      obtain ⟨hcd, htall0⟩ : c.isDigit = true ∧ t.all (fun d => d.isDigit) = true := by
        simpa using h
      have htall : ∀ d ∈ t, d.isDigit = true := by
        simpa [List.all_eq_true] using htall0
      have hdr := digitRun_digits t htall rest (digitRun_stop hrest)
      simp [scanIntPart, hc, hcd, hdr]

theorem scanNumber_intToken (raw : String) (rest : List Char)
    (h : intToken raw = true) (hrest : numDelim rest = true) :
    scanNumber (raw.data ++ rest) = some (raw.data, rest) := by
  unfold intToken at h
  rcases hd : raw.data with _ | ⟨c, ds⟩
  · rw [hd] at h; simp at h
  · rw [hd] at h
    by_cases hc : c = '-'
    · subst hc
      have h2 : intDigits ds = true := by simpa using h
      have hip := scanIntPart_token ds h2 rest hrest
      have hf := numDelim_stop_frac hrest
      have he := numDelim_stop_exp hrest
      simp [scanNumber, hip, hf, he]
    · have h2 : intDigits (c :: ds) = true := by simpa [hc] using h
      have hip := scanIntPart_token (c :: ds) h2 rest hrest
      have hf := numDelim_stop_frac hrest
      have he := numDelim_stop_exp hrest
      rw [List.cons_append]
      unfold scanNumber
      split
      · rename_i heq
        cases heq
        exact absurd rfl hc
      · rw [← List.cons_append, hip]
        simp [hf, he]

/-! ### String-body and character-class lemmas -/

theorem plainChar_spec {c : Char} (h : plainChar c = true) :
    c ≠ '"' ∧ c ≠ '\\' ∧ ¬(c.toNat < 32) := by
  simp only [plainChar, Bool.and_eq_true, decide_eq_true_eq] at h
  exact ⟨h.1.1, h.1.2, by omega⟩

theorem scanStrAux_quote (acc rest : List Char) :
    scanStrAux acc ('"' :: rest) = some (String.mk acc.reverse, rest) := by
  rw [scanStrAux.eq_def]
  simp

theorem scanStrAux_plain_step (acc : List Char) {c : Char} (rest : List Char)
    (h1 : c ≠ '"') (h2 : c ≠ '\\') (h3 : ¬(c.toNat < 32)) :
    scanStrAux acc (c :: rest) = scanStrAux (c :: acc) rest := by
  rw [scanStrAux.eq_def]
  simp [h1, h2, h3]

theorem scanStr_plain (cs : List Char) (hp : ∀ c ∈ cs, plainChar c = true) :
    ∀ (acc rest : List Char),
      scanStrAux acc (cs ++ '"' :: rest) = some (String.mk (acc.reverse ++ cs), rest) := by
  induction cs with
  | nil =>
    intro acc rest
    rw [List.nil_append, scanStrAux_quote]
    simp
  | cons c t ih =>
    intro acc rest
    obtain ⟨h1, h2, h3⟩ := plainChar_spec (hp c (by simp))
    rw [List.cons_append, scanStrAux_plain_step acc _ h1 h2 h3,
      ih (fun x hx => hp x (by simp [hx]))]
    simp

theorem digit_not_special {c : Char} (h : c.isDigit = true) :
    jsonWsChar c = false ∧ c ≠ '"' ∧ c ≠ '[' ∧ c ≠ '{' ∧ c ≠ 'n' ∧ c ≠ 't' ∧ c ≠ 'f' ∧
      c ≠ 'N' ∧ c ≠ 'I' ∧ c ≠ '-' ∧ c ≠ ']' ∧ c ≠ '}' ∧ c ≠ ',' := by
  refine ⟨?_, ?_, ?_, ?_, ?_, ?_, ?_, ?_, ?_, ?_, ?_, ?_, ?_⟩
  · cases hw : jsonWsChar c
    · rfl
    · exfalso
      simp only [jsonWsChar, Bool.or_eq_true, decide_eq_true_eq] at hw
      rcases hw with ((rfl | rfl) | rfl) | rfl <;> exact absurd h (by decide)
  all_goals (intro heq; rw [heq] at h; exact absurd h (by decide))

theorem intDigits_head {c : Char} {ds : List Char} (h : intDigits (c :: ds) = true) :
    c.isDigit = true := by
  simp only [intDigits] at h
  by_cases hc : c = '0'
  · subst hc; decide
  · rw [if_neg hc] at h
    obtain ⟨h1, h2⟩ : c.isDigit = true ∧ ds.all (fun d => d.isDigit) = true := by simpa using h
    exact h1

theorem renderVal_head (j : Json) (hp : plainJson j = true) :
    ∃ c t, renderVal j = c :: t ∧ jsonWsChar c = false ∧ c ≠ ']' ∧ c ≠ '}' := by
  cases j with
  | null =>
    refine ⟨'n', ['u', 'l', 'l'], rfl, ?_, ?_, ?_⟩ <;> decide
  | bool b =>
    cases b with
    | false => refine ⟨'f', ['a', 'l', 's', 'e'], rfl, ?_, ?_, ?_⟩ <;> decide
    | true => refine ⟨'t', ['r', 'u', 'e'], rfl, ?_, ?_, ?_⟩ <;> decide
  | str s =>
    refine ⟨'"', s.data ++ ['"'], rfl, ?_, ?_, ?_⟩ <;> decide
  | arr es =>
    refine ⟨'[', renderElems es ++ [']'], rfl, ?_, ?_, ?_⟩ <;> decide
  | obj ms =>
    refine ⟨'{', renderMembers ms ++ ['}'], rfl, ?_, ?_, ?_⟩ <;> decide
  | num raw =>
    have h : intToken raw = true := by simpa [plainJson] using hp
    unfold intToken at h
    rcases hd : raw.data with _ | ⟨c, ds⟩
    · rw [hd] at h; simp at h
    · rw [hd] at h
      refine ⟨c, ds, by simp [renderVal, hd], ?_, ?_, ?_⟩ <;>
        · by_cases hc : c = '-'
          · subst hc; decide
          · have h2 : intDigits (c :: ds) = true := by simpa [hc] using h
            have hcd := intDigits_head h2
            obtain ⟨f1, _, _, _, _, _, _, _, _, _, f11, f12, _⟩ := digit_not_special hcd
            first | exact f1 | exact f11 | exact f12

theorem skipJsonWs_cons {c : Char} (t : List Char) (h : jsonWsChar c = false) :
    skipJsonWs (c :: t) = c :: t := by
  simp [skipJsonWs, h]

theorem skipJsonWs_render (j : Json) (hp : plainJson j = true) (x : List Char) :
    skipJsonWs (renderVal j ++ x) = renderVal j ++ x := by
  obtain ⟨c, t, hr, hw, _, _⟩ := renderVal_head j hp
  rw [hr, List.cons_append, skipJsonWs_cons _ hw]

/-! ### Parser dispatch lemmas -/

theorem dropLit_self (p : List Char) : ∀ r, dropLit p (p ++ r) = some r := by
  induction p with
  | nil => intro r; rfl
  | cons c t ih => intro r; simp [dropLit, ih]

theorem dropLit_ne {p : Char} (ps : List Char) {c : Char} (cs : List Char) (h : c ≠ p) :
    dropLit (p :: ps) (c :: cs) = none := by
  simp [dropLit, h]

theorem jsonVal_null (f : Nat) (rest : List Char) :
    jsonVal (f + 1) ('n' :: 'u' :: 'l' :: 'l' :: rest) = some (Json.null, rest) := by
  rw [jsonVal.eq_def]
  simp [dropLit]

theorem jsonVal_true (f : Nat) (rest : List Char) :
    jsonVal (f + 1) ('t' :: 'r' :: 'u' :: 'e' :: rest) = some (Json.bool true, rest) := by
  rw [jsonVal.eq_def]
  simp [dropLit]

theorem jsonVal_false (f : Nat) (rest : List Char) :
    jsonVal (f + 1) ('f' :: 'a' :: 'l' :: 's' :: 'e' :: rest) = some (Json.bool false, rest) := by
  rw [jsonVal.eq_def]
  simp [dropLit]

theorem jsonVal_str_plain (f : Nat) (s : String) (hp : ∀ c ∈ s.data, plainChar c = true)
    (rest : List Char) :
    jsonVal (f + 1) ('"' :: (s.data ++ '"' :: rest)) = some (Json.str s, rest) := by
  rw [jsonVal.eq_def]
  simp only [reduceIte]
  rw [scanStr_plain s.data hp [] rest]
  simp

theorem jsonVal_digit (f : Nat) {c : Char} (r : List Char) (h : c.isDigit = true) :
    jsonVal (f + 1) (c :: r) =
      (match scanNumber (c :: r) with
       | some (raw, rest) => some (Json.num (String.mk raw), rest)
       | none => none) := by
  obtain ⟨_, h1, h2, h3, h4, h5, h6, h7, h8, h9, _, _, _⟩ := digit_not_special h
  rw [jsonVal.eq_def]
  simp [h1, h2, h3, h4, h5, h6, h7, h8, h9]

theorem jsonVal_neg (f : Nat) (r : List Char)
    (h : dropLit ['I', 'n', 'f', 'i', 'n', 'i', 't', 'y'] r = none) :
    jsonVal (f + 1) ('-' :: r) =
      (match scanNumber ('-' :: r) with
       | some (raw, rest) => some (Json.num (String.mk raw), rest)
       | none => none) := by
  rw [jsonVal.eq_def]
  simp [h]

theorem jsonVal_num_plain (f : Nat) (raw : String) (h : intToken raw = true)
    (rest : List Char) (hrest : numDelim rest = true) :
    jsonVal (f + 1) (raw.data ++ rest) = some (Json.num raw, rest) := by
  have hs := scanNumber_intToken raw rest h hrest
  unfold intToken at h
  rcases hd : raw.data with _ | ⟨c, ds⟩
  · rw [hd] at h; simp at h
  · rw [hd] at h
    rw [hd] at hs
    by_cases hc : c = '-'
    · subst hc
      have h2 : intDigits ds = true := by simpa using h
      have hdl : dropLit ['I', 'n', 'f', 'i', 'n', 'i', 't', 'y'] (ds ++ rest) = none := by
        rcases hds : ds with _ | ⟨d, ds2⟩
        · rw [hds] at h2; simp [intDigits] at h2
        · have hdd : d.isDigit = true := intDigits_head (hds ▸ h2)
          have : d ≠ 'I' := (digit_not_special hdd).2.2.2.2.2.2.2.2.1
          exact dropLit_ne _ _ this
      rw [List.cons_append] at hs
      rw [List.cons_append, jsonVal_neg f _ hdl]
      simp only [hs]
      rw [show String.mk ('-' :: ds) = raw from by rw [← hd]]
    · have h2 : intDigits (c :: ds) = true := by simpa [hc] using h
      have hcd := intDigits_head h2
      rw [List.cons_append] at hs
      rw [List.cons_append, jsonVal_digit f _ hcd]
      simp only [hs]
      rw [show String.mk (c :: ds) = raw from by rw [← hd]]

theorem jsonVal_lbracket (f : Nat) (r : List Char) :
    jsonVal (f + 1) ('[' :: r) =
      (match skipJsonWs r with
       | ']' :: rest => some (Json.arr [], rest)
       | cs2 =>
         match jsonElems f cs2 with
         | some (es, rest) => some (Json.arr es, rest)
         | none => none) := by
  rw [jsonVal.eq_def]
  simp

theorem jsonVal_lbrace (f : Nat) (r : List Char) :
    jsonVal (f + 1) ('{' :: r) =
      (match skipJsonWs r with
       | '}' :: rest => some (Json.obj [], rest)
       | cs2 =>
         match jsonMembers f cs2 with
         | some (ms, rest) => some (Json.obj (pairsToDict ms), rest)
         | none => none) := by
  rw [jsonVal.eq_def]
  simp

theorem jsonElems_step (f : Nat) (cs : List Char) :
    jsonElems (f + 1) cs =
      (match jsonVal f cs with
       | none => none
       | some (v, r) =>
         match skipJsonWs r with
         | ',' :: r2 =>
           match jsonElems f (skipJsonWs r2) with
           | some (vs, r3) => some (v :: vs, r3)
           | none => none
         | ']' :: r2 => some ([v], r2)
         | _ => none) := by
  rw [jsonElems.eq_def]

theorem jsonMembers_step (f : Nat) (cs : List Char) :
    jsonMembers (f + 1) cs =
      (match cs with
       | '"' :: r =>
         match scanStrAux [] r with
         | none => none
         | some (k, r1) =>
           match skipJsonWs r1 with
           | ':' :: r2 =>
             match jsonVal f (skipJsonWs r2) with
             | none => none
             | some (v, r3) =>
               match skipJsonWs r3 with
               | ',' :: r4 =>
                 match jsonMembers f (skipJsonWs r4) with
                 | some (ms, r5) => some ((k, v) :: ms, r5)
                 | none => none
               | '}' :: r4 => some ([(k, v)], r4)
               | _ => none
           | _ => none
       | _ => none) := by
  rw [jsonMembers.eq_def]

theorem numDelim_comma (x : List Char) : numDelim (',' :: x) = true := rfl

theorem numDelim_rbracket (x : List Char) : numDelim (']' :: x) = true := rfl

theorem numDelim_rbrace (x : List Char) : numDelim ('}' :: x) = true := rfl

theorem dictInsert_new (acc : List (String × Json)) (k : String) (v : Json)
    (h : ∀ q ∈ acc, q.1 ≠ k) :
    dictInsert acc k v = acc ++ [(k, v)] := by
  unfold dictInsert
  have hfalse : acc.any (fun p => p.1 = k) = false := by
    simp only [List.any_eq_false, decide_eq_true_eq]
    exact h
  simp [hfalse]

theorem pairsToDict_nodup (ms : List (String × Json)) (h : keysNodup ms = true) :
    pairsToDict ms = ms := by
  suffices h2 : ∀ (ms2 : List (String × Json)) (acc : List (String × Json)),
      (∀ p ∈ ms2, ∀ q ∈ acc, q.1 ≠ p.1) → keysNodup ms2 = true →
      ms2.foldl (fun a kv => dictInsert a kv.1 kv.2) acc = acc ++ ms2 by
    have := h2 ms [] (by simp) h
    simpa [pairsToDict] using this
  intro ms2
  induction ms2 with
  | nil => intro acc _ _; simp
  | cons kv ms3 ih =>
    intro acc hdisj hnd
    obtain ⟨k, v⟩ := kv
    simp only [keysNodup, Bool.and_eq_true, List.all_eq_true, decide_eq_true_eq] at hnd
    simp only [List.foldl_cons]
    rw [dictInsert_new acc k v (fun q hq => hdisj (k, v) (by simp) q hq)]
    rw [ih (acc ++ [(k, v)]) ?_ hnd.2]
    · simp
    · intro p hp q hq
      rcases List.mem_append.mp hq with hq | hq
      · exact hdisj p (by simp [hp]) q hq
      · simp only [List.mem_singleton] at hq
        subst hq
        exact fun heq => (hnd.1 p hp) heq.symm

theorem renderElems_cons (e : Json) (es : List Json) :
    renderElems (e :: es) =
      renderVal e ++ (match es with | [] => [] | _ :: _ => ',' :: renderElems es) := by
  cases es <;> simp [renderElems]

theorem renderMembers_head (k : String) (v : Json) (ms : List (String × Json)) :
    ∃ X, renderMembers ((k, v) :: ms) = '"' :: X := by
  cases ms with
  | nil => exact ⟨k.data ++ '"' :: ':' :: renderVal v, by simp [renderMembers]⟩
  | cons a l =>
    exact ⟨k.data ++ '"' :: ':' :: (renderVal v ++ ',' :: renderMembers (a :: l)),
      by simp [renderMembers]⟩

theorem renderElems_head (e : Json) (es : List Json) (hpe : plainJson e = true) :
    ∃ c t, renderElems (e :: es) = c :: t ∧ jsonWsChar c = false ∧ c ≠ ']' ∧ c ≠ '}' := by
  obtain ⟨c, t, hre, h1, h2, h3⟩ := renderVal_head e hpe
  cases es with
  | nil => exact ⟨c, t, by simp [renderElems, hre], h1, h2, h3⟩
  | cons x xs =>
    exact ⟨c, t ++ ',' :: renderElems (x :: xs), by simp [renderElems, hre], h1, h2, h3⟩

theorem skipJsonWs_renderElems (e : Json) (es : List Json) (hpe : plainJson e = true)
    (x : List Char) :
    skipJsonWs (renderElems (e :: es) ++ x) = renderElems (e :: es) ++ x := by
  obtain ⟨c, t, hre, hwc, _, _⟩ := renderVal_head e hpe
  rw [renderElems_cons, List.append_assoc, hre, List.cons_append, skipJsonWs_cons _ hwc]

theorem skipJsonWs_renderMembers (k : String) (v : Json) (ms : List (String × Json))
    (x : List Char) :
    skipJsonWs (renderMembers ((k, v) :: ms) ++ x) = renderMembers ((k, v) :: ms) ++ x := by
  obtain ⟨X, hX⟩ := renderMembers_head k v ms
  rw [hX, List.cons_append, skipJsonWs_cons _ (by decide)]

mutual

theorem rt_val : ∀ (j : Json) (fuel : Nat) (rest : List Char),
    plainJson j = true → (renderVal j).length < fuel → numDelim rest = true →
    jsonVal fuel (renderVal j ++ rest) = some (j, rest)
  | Json.null, fuel, rest, _, hf, _ => by
    cases fuel with
    | zero => exact absurd hf (Nat.not_lt_zero _)
    | succ f => exact jsonVal_null f rest
  | Json.bool true, fuel, rest, _, hf, _ => by
    cases fuel with
    | zero => exact absurd hf (Nat.not_lt_zero _)
    | succ f => exact jsonVal_true f rest
  | Json.bool false, fuel, rest, _, hf, _ => by
    cases fuel with
    | zero => exact absurd hf (Nat.not_lt_zero _)
    | succ f => exact jsonVal_false f rest
  | Json.num raw, fuel, rest, hp, hf, hrest => by
    cases fuel with
    | zero => exact absurd hf (Nat.not_lt_zero _)
    | succ f =>
      have h : intToken raw = true := by simpa [plainJson] using hp
      simpa [renderVal] using jsonVal_num_plain f raw h rest hrest
  | Json.str s, fuel, rest, hp, hf, _ => by
    cases fuel with
    | zero => exact absurd hf (Nat.not_lt_zero _)
    | succ f =>
      have hps : ∀ c ∈ s.data, plainChar c = true := by
        simpa [plainJson, List.all_eq_true] using hp
      have := jsonVal_str_plain f s hps rest
      simpa [renderVal, List.cons_append, List.append_assoc] using this
  | Json.arr [], fuel, rest, _, hf, _ => by
    cases fuel with
    | zero => exact absurd hf (Nat.not_lt_zero _)
    | succ f =>
      have harg : renderVal (Json.arr []) ++ rest = '[' :: (']' :: rest) := by
        simp [renderVal, renderElems]
      rw [harg, jsonVal_lbracket f (']' :: rest), skipJsonWs_cons rest (by decide)]
      simp
  | Json.arr (e :: es), fuel, rest, hp, hf, _ => by
    cases fuel with
    | zero => exact absurd hf (Nat.not_lt_zero _)
    | succ f =>
      obtain ⟨hpe, hpes⟩ : plainJson e = true ∧ plainList es = true := by
        simpa [plainJson, plainList] using hp
      have hfe : (renderElems (e :: es)).length + 1 < f := by
        have : (renderVal (Json.arr (e :: es))).length
            = (renderElems (e :: es)).length + 2 := by
          simp [renderVal]
        omega
      have key := rt_elems e es f rest hpe hpes hfe
      have harg : renderVal (Json.arr (e :: es)) ++ rest
          = '[' :: (renderElems (e :: es) ++ ']' :: rest) := by
        simp [renderVal]
      rw [harg, jsonVal_lbracket f _, skipJsonWs_renderElems e es hpe (']' :: rest)]
      obtain ⟨c, t, hce, hwc, hbr, hbc⟩ := renderElems_head e es hpe
      have hcs : renderElems (e :: es) ++ ']' :: rest = c :: (t ++ ']' :: rest) := by
        rw [hce]
        rfl
      rw [hcs]
      split
      · rename_i rest2 heq
        injection heq with h1 h2
        exact absurd h1 hbr
      · rw [← hcs, key]
  | Json.obj [], fuel, rest, _, hf, _ => by
    cases fuel with
    | zero => exact absurd hf (Nat.not_lt_zero _)
    | succ f =>
      have harg : renderVal (Json.obj []) ++ rest = '{' :: ('}' :: rest) := by
        simp [renderVal, renderMembers]
      rw [harg, jsonVal_lbrace f ('}' :: rest), skipJsonWs_cons rest (by decide)]
      simp
  | Json.obj ((k, v) :: ms), fuel, rest, hp, hf, _ => by
    cases fuel with
    | zero => exact absurd hf (Nat.not_lt_zero _)
    | succ f =>
      have hpl := hp
      simp only [plainJson, plainMembers, Bool.and_eq_true] at hpl
      obtain ⟨hnd, ⟨hk, hv⟩, hms⟩ := hpl
      have hfm : (renderMembers ((k, v) :: ms)).length + 1 < f := by
        have : (renderVal (Json.obj ((k, v) :: ms))).length
            = (renderMembers ((k, v) :: ms)).length + 2 := by
          simp [renderVal]
        omega
      have key := rt_members k v ms f rest hk hv hms hfm
      have harg : renderVal (Json.obj ((k, v) :: ms)) ++ rest
          = '{' :: (renderMembers ((k, v) :: ms) ++ '}' :: rest) := by
        simp [renderVal]
      rw [harg, jsonVal_lbrace f _, skipJsonWs_renderMembers k v ms ('}' :: rest)]
      obtain ⟨X, hX⟩ := renderMembers_head k v ms
      rw [hX, List.cons_append]
      split
      · rename_i rest2 heq
        injection heq with h1 h2
        exact absurd h1 (by decide)
      · rw [← List.cons_append, ← hX, key]
        simp [pairsToDict_nodup _ hnd]
  termination_by j _ _ _ _ _ => sizeOf j

theorem rt_elems : ∀ (e : Json) (es : List Json) (fuel : Nat) (rest : List Char),
    plainJson e = true → plainList es = true →
    (renderElems (e :: es)).length + 1 < fuel →
    jsonElems fuel (renderElems (e :: es) ++ ']' :: rest) = some (e :: es, rest)
  | e, [], fuel, rest, hpe, _, hf => by
    cases fuel with
    | zero => exact absurd hf (Nat.not_lt_zero _)
    | succ f =>
      have hfe : (renderVal e).length < f := by
        have : renderElems [e] = renderVal e := by simp [renderElems]
        rw [this] at hf
        omega
      have h1 := rt_val e f (']' :: rest) hpe hfe (numDelim_rbracket rest)
      have h2 : skipJsonWs (']' :: rest) = ']' :: rest := skipJsonWs_cons rest (by decide)
      have harg : renderElems [e] ++ ']' :: rest = renderVal e ++ ']' :: rest := by
        simp [renderElems]
      rw [harg, jsonElems_step]
      simp [h1, h2]
  | e, x :: xs, fuel, rest, hpe, hpes, hf => by
    cases fuel with
    | zero => exact absurd hf (Nat.not_lt_zero _)
    | succ f =>
      obtain ⟨hpx, hpxs⟩ : plainJson x = true ∧ plainList xs = true := by
        simpa [plainList] using hpes
      have hlen : renderElems (e :: x :: xs) = renderVal e ++ ',' :: renderElems (x :: xs) := by
        simp [renderElems]
      rw [hlen] at hf
      simp only [List.length_append, List.length_cons] at hf
      have hfe : (renderVal e).length < f := by omega
      have hfx : (renderElems (x :: xs)).length + 1 < f := by omega
      have key := rt_elems x xs f rest hpx hpxs hfx
      have h1 := rt_val e f (',' :: (renderElems (x :: xs) ++ ']' :: rest)) hpe hfe
        (numDelim_comma _)
      have h2 : skipJsonWs (',' :: (renderElems (x :: xs) ++ ']' :: rest))
          = ',' :: (renderElems (x :: xs) ++ ']' :: rest) := skipJsonWs_cons _ (by decide)
      have h3 := skipJsonWs_renderElems x xs hpx (']' :: rest)
      have harg : renderElems (e :: x :: xs) ++ ']' :: rest
          = renderVal e ++ (',' :: (renderElems (x :: xs) ++ ']' :: rest)) := by
        rw [hlen]
        simp [List.append_assoc]
      rw [harg, jsonElems_step]
      simp [h1, h2, h3, key]
  termination_by e es _ _ _ _ _ => sizeOf e + sizeOf es

theorem rt_members : ∀ (k : String) (v : Json) (ms : List (String × Json))
    (fuel : Nat) (rest : List Char),
    k.data.all (fun c => plainChar c) = true → plainJson v = true → plainMembers ms = true →
    (renderMembers ((k, v) :: ms)).length + 1 < fuel →
    jsonMembers fuel (renderMembers ((k, v) :: ms) ++ '}' :: rest) = some ((k, v) :: ms, rest)
  | k, v, [], fuel, rest, hk, hv, _, hf => by
    cases fuel with
    | zero => exact absurd hf (Nat.not_lt_zero _)
    | succ f =>
      have hkp : ∀ c ∈ k.data, plainChar c = true := by
        simpa [List.all_eq_true] using hk
      have hfv : (renderVal v).length < f := by
        have : renderMembers [(k, v)] = '"' :: (k.data ++ '"' :: ':' :: renderVal v) := by
          simp [renderMembers]
        rw [this] at hf
        simp only [List.length_cons, List.length_append] at hf
        omega
      have h1 : scanStrAux [] (k.data ++ '"' :: (':' :: (renderVal v ++ '}' :: rest)))
          = some (k, ':' :: (renderVal v ++ '}' :: rest)) := by
        rw [scanStr_plain k.data hkp []]
        rfl
      have h2 : skipJsonWs (':' :: (renderVal v ++ '}' :: rest))
          = ':' :: (renderVal v ++ '}' :: rest) := skipJsonWs_cons _ (by decide)
      have h3 := skipJsonWs_render v hv ('}' :: rest)
      have h4 := rt_val v f ('}' :: rest) hv hfv (numDelim_rbrace rest)
      have h5 : skipJsonWs ('}' :: rest) = '}' :: rest := skipJsonWs_cons rest (by decide)
      have harg : renderMembers [(k, v)] ++ '}' :: rest
          = '"' :: (k.data ++ '"' :: (':' :: (renderVal v ++ '}' :: rest))) := by
        simp [renderMembers]
      rw [harg, jsonMembers_step]
      simp [h1, h2, h3, h4, h5]
  | k, v, (k2, v2) :: ms2, fuel, rest, hk, hv, hms, hf => by
    cases fuel with
    | zero => exact absurd hf (Nat.not_lt_zero _)
    | succ f =>
      have hkp : ∀ c ∈ k.data, plainChar c = true := by
        simpa [List.all_eq_true] using hk
      have hms' := hms
      simp only [plainMembers, Bool.and_eq_true] at hms'
      obtain ⟨⟨hk2, hv2⟩, hms2⟩ := hms'
      have hlen : renderMembers ((k, v) :: (k2, v2) :: ms2)
          = '"' :: (k.data ++ '"' :: ':' :: (renderVal v
              ++ ',' :: renderMembers ((k2, v2) :: ms2))) := by
        simp [renderMembers]
      rw [hlen] at hf
      simp only [List.length_cons, List.length_append] at hf
      have hfv : (renderVal v).length < f := by omega
      have hfm : (renderMembers ((k2, v2) :: ms2)).length + 1 < f := by omega
      have key := rt_members k2 v2 ms2 f rest hk2 hv2 hms2 hfm
      have h1 : scanStrAux [] (k.data ++ '"' :: (':' :: (renderVal v
            ++ ',' :: (renderMembers ((k2, v2) :: ms2) ++ '}' :: rest))))
          = some (k, ':' :: (renderVal v
            ++ ',' :: (renderMembers ((k2, v2) :: ms2) ++ '}' :: rest))) := by
        rw [scanStr_plain k.data hkp []]
        rfl
      have h2 : skipJsonWs (':' :: (renderVal v
            ++ ',' :: (renderMembers ((k2, v2) :: ms2) ++ '}' :: rest)))
          = ':' :: (renderVal v
            ++ ',' :: (renderMembers ((k2, v2) :: ms2) ++ '}' :: rest)) :=
        skipJsonWs_cons _ (by decide)
      have h3 := skipJsonWs_render v hv
        (',' :: (renderMembers ((k2, v2) :: ms2) ++ '}' :: rest))
      have h4 := rt_val v f (',' :: (renderMembers ((k2, v2) :: ms2) ++ '}' :: rest)) hv hfv
        (numDelim_comma _)
      have h5 : skipJsonWs (',' :: (renderMembers ((k2, v2) :: ms2) ++ '}' :: rest))
          = ',' :: (renderMembers ((k2, v2) :: ms2) ++ '}' :: rest) :=
        skipJsonWs_cons _ (by decide)
      have h6 := skipJsonWs_renderMembers k2 v2 ms2 ('}' :: rest)
      have harg : renderMembers ((k, v) :: (k2, v2) :: ms2) ++ '}' :: rest
          = '"' :: (k.data ++ '"' :: (':' :: (renderVal v
              ++ ',' :: (renderMembers ((k2, v2) :: ms2) ++ '}' :: rest)))) := by
        rw [hlen]
        simp [List.append_assoc]
      rw [harg, jsonMembers_step]
      simp [h1, h2, h3, h4, h5, h6, key]
  termination_by k v ms _ _ _ _ _ _ => sizeOf v + sizeOf ms

end

theorem json_loads_render (j : Json) (hp : plainJson j = true) :
    json_loads (jsonSerialize j) = some j := by
  obtain ⟨c, t, hre, hwc, _, _⟩ := renderVal_head j hp
  have hdata : (jsonSerialize j).data = renderVal j := rfl
  have hskip : skipJsonWs (renderVal j) = renderVal j := by
    rw [hre, skipJsonWs_cons _ hwc]
  have hval := rt_val j ((renderVal j).length + 1) [] hp (by omega) rfl
  rw [List.append_nil] at hval
  simp only [json_loads, hdata, hskip, hval]
  rfl

theorem jsonVal_backtick (fuel : Nat) (r : List Char) : jsonVal fuel ('`' :: r) = none := by
  cases fuel with
  | zero => rw [jsonVal.eq_def]
  | succ f =>
    rw [jsonVal.eq_def]
    simp [scanNumber, scanIntPart]

theorem json_loads_backtick_head (s : String) (r : List Char) (h : s.data = '`' :: r) :
    json_loads s = none := by
  simp only [json_loads, h]
  rw [skipJsonWs_cons _ (by decide), jsonVal_backtick]

theorem splitSub_none (p : Char) (ps : List Char) (l : List Char)
    (h : ∀ c ∈ l, c ≠ p) : splitSub (p :: ps) l = none := by
  induction l with
  | nil => rfl
  | cons c cs ih =>
    have hc : c ≠ p := h c (by simp)
    simp [splitSub, dropLit_ne ps cs hc, ih (fun x hx => h x (by simp [hx]))]

theorem splitSub_found (p : Char) (ps : List Char) (A B : List Char)
    (hA : ∀ c ∈ A, c ≠ p) :
    splitSub (p :: ps) (A ++ (p :: ps) ++ B) = some (A, B) := by
  induction A with
  | nil =>
    simp only [List.nil_append, List.cons_append]
    rw [splitSub]
    rw [show p :: (ps ++ B) = (p :: ps) ++ B from rfl, dropLit_self]
  | cons c A' ih =>
    have hc : c ≠ p := hA c (by simp)
    simp only [List.cons_append, List.append_assoc] at ih ⊢
    rw [splitSub, dropLit_ne ps _ hc, ih (fun x hx => hA x (by simp [hx]))]

theorem splitLast_none (t : Char) (l : List Char) (h : ∀ c ∈ l, c ≠ t) :
    splitLast t l = none := by
  induction l with
  | nil => rfl
  | cons c cs ih =>
    have hc : c ≠ t := h c (by simp)
    simp [splitLast, ih (fun x hx => h x (by simp [hx])), hc]

theorem splitLast_found (t : Char) (X Y : List Char) (hY : ∀ c ∈ Y, c ≠ t) :
    splitLast t (X ++ t :: Y) = some (X, Y) := by
  induction X with
  | nil =>
    simp [splitLast, splitLast_none t Y hY]
  | cons c X' ih =>
    simp [splitLast, ih]

theorem pyStripL_render_obj (ms : List (String × Json)) :
    pyStripL ('\n' :: (renderVal (Json.obj ms) ++ ['\n'])) = renderVal (Json.obj ms) := by
  have hsh : renderVal (Json.obj ms) = '{' :: (renderMembers ms ++ ['}']) := by
    simp [renderVal]
  rw [hsh]
  unfold pyStripL
  simp [List.dropWhile, pyIsSpace, List.reverse_append]

theorem extractFenced_none (s : String) (h : ∀ c ∈ s.data, c ≠ '`') :
    extractFenced s = none := by
  have h0 : splitSub fencePat s.data = none := by
    rw [show fencePat = '`' :: ['`', '`'] from rfl]
    exact splitSub_none _ _ _ h
  simp [extractFenced, h0]

theorem extractBraces_none (s : String) (h : ∀ c ∈ s.data, c ≠ '{') :
    extractBraces s = none := by
  have h0 : splitSub ['{'] s.data = none := splitSub_none _ _ _ h
  simp [extractBraces, h0]

theorem extractFenced_wrapped (ms : List (String × Json))
    (hfree : ∀ c ∈ renderVal (Json.obj ms), c ≠ '`') :
    extractFenced ("```json\n" ++ jsonSerialize (Json.obj ms) ++ "\n```")
      = some (jsonSerialize (Json.obj ms)) := by
  have e1 : ("```json\n" : String).data
      = '`' :: '`' :: '`' :: 'j' :: 's' :: 'o' :: 'n' :: '\n' :: [] := rfl
  have e2 : ("\n```" : String).data = '\n' :: '`' :: '`' :: '`' :: [] := rfl
  have hdata : ("```json\n" ++ jsonSerialize (Json.obj ms) ++ "\n```").data
      = '`' :: '`' :: '`' :: 'j' :: 's' :: 'o' :: 'n' :: '\n'
          :: (renderVal (Json.obj ms) ++ '\n' :: '`' :: '`' :: '`' :: []) := by
    rw [String.data_append, String.data_append, e1, e2]
    simp [jsonSerialize]
  have h1 : splitSub fencePat ("```json\n" ++ jsonSerialize (Json.obj ms) ++ "\n```").data
      = some ([], 'j' :: 's' :: 'o' :: 'n' :: '\n'
          :: (renderVal (Json.obj ms) ++ '\n' :: '`' :: '`' :: '`' :: [])) := by
    rw [hdata]
    have := splitSub_found '`' ['`', '`'] []
      ('j' :: 's' :: 'o' :: 'n' :: '\n'
        :: (renderVal (Json.obj ms) ++ '\n' :: '`' :: '`' :: '`' :: [])) (by simp)
    simpa using this
  have h2 : dropLit ['j', 's', 'o', 'n']
      ('j' :: 's' :: 'o' :: 'n' :: '\n'
        :: (renderVal (Json.obj ms) ++ '\n' :: '`' :: '`' :: '`' :: []))
      = some ('\n' :: (renderVal (Json.obj ms) ++ '\n' :: '`' :: '`' :: '`' :: [])) := by
    simp [dropLit]
  have hsh : '\n' :: (renderVal (Json.obj ms) ++ '\n' :: '`' :: '`' :: '`' :: [])
      = ('\n' :: (renderVal (Json.obj ms) ++ ['\n'])) ++ fencePat ++ [] := by
    rw [show fencePat = '`' :: ['`', '`'] from rfl]
    simp
  have h3 : splitSub fencePat
      ('\n' :: (renderVal (Json.obj ms) ++ '\n' :: '`' :: '`' :: '`' :: []))
      = some ('\n' :: (renderVal (Json.obj ms) ++ ['\n']), []) := by
    rw [hsh, show fencePat = '`' :: ['`', '`'] from rfl]
    apply splitSub_found
    intro c hc
    rcases List.mem_cons.mp hc with rfl | hc2
    · decide
    · rcases List.mem_append.mp hc2 with hc3 | hc4
      · exact hfree c hc3
      · simp only [List.mem_singleton] at hc4
        subst hc4
        decide
  have h4 := pyStripL_render_obj ms
  simp only [extractFenced, h1, h2, h3, h4]
  rfl

theorem extractBraces_embedded (p1 p2 : String) (ms : List (String × Json))
    (hp1 : ∀ c ∈ p1.data, c ≠ '{') (hp2 : ∀ c ∈ p2.data, c ≠ '}') :
    extractBraces (p1 ++ jsonSerialize (Json.obj ms) ++ p2)
      = some (jsonSerialize (Json.obj ms)) := by
  have hdata : (p1 ++ jsonSerialize (Json.obj ms) ++ p2).data
      = p1.data ++ ('{' :: (renderMembers ms ++ ['}'])) ++ p2.data := by
    rw [String.data_append, String.data_append]
    simp [jsonSerialize, renderVal]
  have h1 : splitSub ['{'] (p1 ++ jsonSerialize (Json.obj ms) ++ p2).data
      = some (p1.data, (renderMembers ms ++ ['}']) ++ p2.data) := by
    rw [hdata]
    have := splitSub_found '{' [] p1.data ((renderMembers ms ++ ['}']) ++ p2.data) hp1
    simpa [List.append_assoc] using this
  have h2 : splitLast '}' ((renderMembers ms ++ ['}']) ++ p2.data)
      = some (renderMembers ms, p2.data) := by
    have := splitLast_found '}' (renderMembers ms) p2.data hp2
    simpa [List.append_assoc] using this
  simp only [extractBraces, h1, h2]
  simp [jsonSerialize, renderVal]

theorem proseOk_spec {s : String} (h : proseOk s = true) :
    ∀ c ∈ s.data, c ≠ '`' ∧ c ≠ '{' ∧ c ≠ '}' := by
  simp only [proseOk, List.all_eq_true, Bool.and_eq_true, decide_eq_true_eq] at h
  exact fun c hc => ⟨(h c hc).1.1, (h c hc).1.2, (h c hc).2⟩

/-- C2: for every input string, parse_llm_response terminates with a plain
value: either the fixed fallback record, or a value that one of the three
strategies successfully decoded from some text — every decode error is
caught inside the function, so no exception reaches the caller. -/
theorem claim2_parse_total (s : String) :
    parse_llm_response s = fallbackResponse ∨
      ∃ t, json_loads t = some (parse_llm_response s) := by
  rcases h1 : json_loads s with _ | j
  · rcases h2 : (extractFenced s).bind json_loads with _ | j2
    · rcases h3 : (extractBraces s).bind json_loads with _ | j3
      · left
        unfold parse_llm_response
        rw [h1, h2, h3]
      · right
        obtain ⟨t, ht, hl⟩ := Option.bind_eq_some.mp h3
        have hres : parse_llm_response s = j3 := by
          unfold parse_llm_response
          rw [h1, h2, h3]
        exact ⟨t, by rw [hres]; exact hl⟩
    · right
      obtain ⟨t, ht, hl⟩ := Option.bind_eq_some.mp h2
      have hres : parse_llm_response s = j2 := by
        unfold parse_llm_response
        rw [h1, h2]
      exact ⟨t, by rw [hres]; exact hl⟩
  · right
    have hres : parse_llm_response s = j := by
      unfold parse_llm_response
      rw [h1]
    exact ⟨s, by rw [hres]; exact h1⟩

/-- C3 (counterexample): the input "[]" decodes to an empty array, which
parse_llm_response returns verbatim; the result is not an
AnalysisResult-shaped record. -/
theorem claim3_counterexample : analysisShaped (parse_llm_response "[]") = false := rfl

/-- C3 (amended): parse_llm_response always returns a value, but the value is
guaranteed AnalysisResult-shaped only when it is the fixed fallback record;
any JSON one of the three strategies extracts is returned verbatim, with no
shape validation. -/
theorem claim3_amended_shape (s : String) :
    analysisShaped (parse_llm_response s) = true ∨
      ∃ t, json_loads t = some (parse_llm_response s) := by
  rcases h1 : json_loads s with _ | j
  · rcases h2 : (extractFenced s).bind json_loads with _ | j2
    · rcases h3 : (extractBraces s).bind json_loads with _ | j3
      · left
        have hres : parse_llm_response s = fallbackResponse := by
          unfold parse_llm_response
          rw [h1, h2, h3]
        rw [hres]
        rfl
      · right
        obtain ⟨t, ht, hl⟩ := Option.bind_eq_some.mp h3
        have hres : parse_llm_response s = j3 := by
          unfold parse_llm_response
          rw [h1, h2, h3]
        exact ⟨t, by rw [hres]; exact hl⟩
    · right
      obtain ⟨t, ht, hl⟩ := Option.bind_eq_some.mp h2
      have hres : parse_llm_response s = j2 := by
        unfold parse_llm_response
        rw [h1, h2]
      exact ⟨t, by rw [hres]; exact hl⟩
  · right
    have hres : parse_llm_response s = j := by
      unfold parse_llm_response
      rw [h1]
    exact ⟨s, by rw [hres]; exact h1⟩

/-- C4: an input with no backtick, no opening brace, and no directly
decodable JSON makes every strategy fail, so parse_llm_response returns
exactly the fixed fallback record: score 50, label Medium, a single
uncertain issue recommending manual review, and the fixed advisory report
and audit-note texts. -/
theorem claim4_no_json_fallback (s : String)
    (hb : ∀ c ∈ s.data, c ≠ '`') (hbr : ∀ c ∈ s.data, c ≠ '{')
    (hl : json_loads s = none) :
    parse_llm_response s = fallbackResponse ∧
      fallbackResponse = Json.obj
        [("score", Json.num "50"),
         ("label", Json.str "Medium"),
         ("issues", Json.arr
           [Json.obj
             [("snippet", Json.str "Unable to parse AI response"),
              ("riskType", Json.str "uncertain"),
              ("explanation", Json.str
                "The trust analysis could not be completed properly. Manual review recommended."),
              ("humanCheckHint", Json.str
                "Please review the original content manually and re-run the analysis.")]]),
         ("complianceReport", Json.str
           "Analysis parsing encountered an issue. The AI-generated content should be reviewed manually by a qualified professional before any decisions are made based on it."),
         ("ndaauditNote", Json.str
           "Automated trust analysis incomplete. Manual compliance review required.")] := by
  refine ⟨?_, rfl⟩
  unfold parse_llm_response
  rw [hl, extractFenced_none s hb, extractBraces_none s hbr]
  rfl

/-- C4 (witness): the literal refusal sentence of the spec contains no JSON
and lands on the fallback record. -/
theorem claim4_witness :
    ((∀ c ∈ ("I cannot comply with this request." : String).data, c ≠ '`') ∧
      (∀ c ∈ ("I cannot comply with this request." : String).data, c ≠ '{') ∧
      json_loads "I cannot comply with this request." = none) ∧
    parse_llm_response "I cannot comply with this request." = fallbackResponse :=
  ⟨⟨by decide, by decide, rfl⟩,
   (claim4_no_json_fallback "I cannot comply with this request."
     (by decide) (by decide) rfl).1⟩

/-- C5: a well-formed schema-shaped JSON object is recovered verbatim (never
the fallback) from (a) its bare serialization, (b) the serialization wrapped
in a triple-backtick fence with a json language tag, and (c) the
serialization sandwiched between prose chunks that stay clear of braces and
backticks (the whole text no longer being directly decodable). -/
theorem claim5_parse_embedded_json (ms : List (String × Json)) (p1 p2 : String)
    (hp : plainJson (Json.obj ms) = true)
    (hshape : analysisShaped (Json.obj ms) = true)
    (hfree : ∀ c ∈ renderVal (Json.obj ms), c ≠ '`')
    (hp1 : proseOk p1 = true) (hp2 : proseOk p2 = true)
    (hfail : json_loads (p1 ++ jsonSerialize (Json.obj ms) ++ p2) = none) :
    parse_llm_response (jsonSerialize (Json.obj ms)) = Json.obj ms ∧
    parse_llm_response ("```json\n" ++ jsonSerialize (Json.obj ms) ++ "\n```") = Json.obj ms ∧
    parse_llm_response (p1 ++ jsonSerialize (Json.obj ms) ++ p2) = Json.obj ms := by
  refine ⟨?_, ?_, ?_⟩
  · unfold parse_llm_response
    rw [json_loads_render _ hp]
  · have hfailb : json_loads ("```json\n" ++ jsonSerialize (Json.obj ms) ++ "\n```")
        = none := by
      apply json_loads_backtick_head _ _
      rw [String.data_append, String.data_append]
      rfl
    unfold parse_llm_response
    rw [hfailb, extractFenced_wrapped ms hfree]
    simp [json_loads_render _ hp]
  · have hfe : extractFenced (p1 ++ jsonSerialize (Json.obj ms) ++ p2) = none := by
      apply extractFenced_none
      intro c hc
      rw [String.data_append, String.data_append] at hc
      rcases List.mem_append.mp hc with hc1 | hc2
      · rcases List.mem_append.mp hc1 with hc3 | hc4
        · exact ((proseOk_spec hp1) c hc3).1
        · exact hfree c hc4
      · exact ((proseOk_spec hp2) c hc2).1
    unfold parse_llm_response
    rw [hfail, hfe,
      extractBraces_embedded p1 p2 ms
        (fun c hc => ((proseOk_spec hp1) c hc).2.1)
        (fun c hc => ((proseOk_spec hp2) c hc).2.2)]
    simp [json_loads_render _ hp]

set_option maxRecDepth 1000000 in
/-- C5 (witness): a concrete schema-shaped record is recovered from all
three packagings. -/
theorem claim5_witness :
    (plainJson (Json.obj exampleAnalysisMembers) = true ∧
      analysisShaped (Json.obj exampleAnalysisMembers) = true ∧
      (∀ c ∈ renderVal (Json.obj exampleAnalysisMembers), c ≠ '`') ∧
      proseOk "Here is the analysis: " = true ∧
      proseOk " Let me know if more detail is needed." = true ∧
      json_loads ("Here is the analysis: " ++ jsonSerialize (Json.obj exampleAnalysisMembers)
        ++ " Let me know if more detail is needed.") = none) ∧
    parse_llm_response (jsonSerialize (Json.obj exampleAnalysisMembers))
        = Json.obj exampleAnalysisMembers ∧
    parse_llm_response ("```json\n" ++ jsonSerialize (Json.obj exampleAnalysisMembers)
        ++ "\n```") = Json.obj exampleAnalysisMembers ∧
    parse_llm_response ("Here is the analysis: "
        ++ jsonSerialize (Json.obj exampleAnalysisMembers)
        ++ " Let me know if more detail is needed.") = Json.obj exampleAnalysisMembers :=
  ⟨⟨rfl, rfl, by decide, rfl, rfl, rfl⟩,
   claim5_parse_embedded_json exampleAnalysisMembers
     "Here is the analysis: " " Let me know if more detail is needed."
     rfl rfl (by decide) rfl rfl rfl⟩

/-- C8 (counterexample): a decoded record with an empty issues array is
passed through verbatim, so the engine does not always emit at least one
issue on the parse path. -/
theorem claim8_counterexample :
    jsonIssueCount (parse_llm_response "\x7b\"issues\": []\x7d") = 0 := rfl

/-- C8 (amended): the demo simulator always emits at least one issue, and
the parse path guarantees one issue only for the fallback record (decoded
JSON is returned without validation and may carry zero issues). -/
theorem claim8_amended_min_one_issue :
    (∀ text cat now : String, 1 ≤ (generate_demo_analysis text cat now).issues.length) ∧
    jsonIssueCount fallbackResponse = 1 :=
  ⟨fun text cat _ => demoIssues_length_pos text cat, rfl⟩


end VeriCore
